import Mathlib

/-!
Verification of the ISBN → LCC resolution pipeline of `lcc_from_isbn`
(`src/lcc_simple.py` and `src/main.py`, which share the same core).

The development shallowly embeds, from the Python source:

* the SQLite-backed cache (`sqlite_search`, `sql_tableinsert`), including the
  `LIKE`-based key comparison and the absence of a uniqueness constraint on the
  `main` table;
* the per-row resolution orchestrator of the `__main__` block: the cache
  lookup, the fixed fourteen-adapter fallback chain, the output-row
  construction (`newdata`) and the write-through guard;
* the normalizer `fix_isbn`, parametric over the opaque `isbnlib` primitives;
* the Harvard adapter (`json_query` / `harvard_get`, in both its `main.py` and
  `lcc_simple.py` variants) over a small model of Python JSON values, with
  uncaught exceptions made explicit;
* the OCLC Classify adapter `get_oclc_data` over a model of its parsed XML
  responses, with a fuel parameter making its self-recursion total.

Python conventions used throughout the embedding: `Option` models
`None`-or-value, `PyOutcome.raised` models an exception escaping the modelled
function, `pyTruthy` models `if x:` on an optional string.
-/

/-- Outcome of running a piece of Python code: it can raise an exception that
escapes the modelled function, exhaust the recursion budget of the model
(used only for `get_oclc_data`, whose self-recursion is not bounded by the
code), or return a value. -/
inductive PyOutcome (α : Type) where
  | raised
  | diverged
  | ret (v : α)
deriving DecidableEq, Repr

/-- Python truthiness of a `None`-or-string value: `None` and `''` are falsy,
every other string is truthy.  This is the test `if lcc:` / `if not lcc:` of
the adapter chain. -/
def pyTruthy : Option String → Bool
  | none => false
  | some s => !(s == "")

/-- Does the list start with the given list, comparing characters with `==`? -/
def listPrefixEq : List Char → List Char → Bool
  | [], _ => true
  | _ :: _, [] => false
  | a :: asx, b :: bs => a == b && listPrefixEq asx bs

/-- Python's `needle in hay` on strings: substring containment. -/
def strIn (needle hay : String) : Bool :=
  (hay.toList.tails).any (fun t => listPrefixEq needle.toList t)

/-- SQL `LIKE` matching of a pattern (first argument) against a subject
string, as SQLite evaluates `x LIKE pattern`: `%` matches any sequence, `_`
any single character, and ordinary characters match up to ASCII case
(`Char.toLower` folds exactly the basic latin letters, like SQLite's default
`LIKE`). -/
def likeM : List Char → List Char → Bool
  | [], s => s.isEmpty
  | a :: ps, s =>
    if a == '%' then (s.tails).any (fun t => likeM ps t)
    else if a == '_' then
      match s with
      | [] => false
      | _ :: s' => likeM ps s'
    else
      match s with
      | [] => false
      | c :: s' => (a.toLower == c.toLower) && likeM ps s'

/-- The comparison `ISBN like '{isbn}'` of `sqlite_search`: the stored column
value `s` is matched against the query `pat` used as the `LIKE` pattern. -/
def strLike (s pat : String) : Bool := likeM pat.toList s.toList

/-- One row of the cache table `main (ISBN text, LC text, LCSource text)`. -/
structure CacheRow where
  isbn : String
  lc : String
  source : String
deriving DecidableEq, Repr

/-- The cache lookup `sqlite_search(dbfile, isbn)`: it runs
`SELECT DISTINCT ISBN, LC, LCSource from main WHERE ISBN like '{isbn}'` and
returns `entry[0]`, i.e. the first matching row in insertion (scan) order, or
`None` when nothing matches.  `DISTINCT` only collapses rows identical in all
three columns and so never changes the first matching row; the store is
modelled as the list of rows in insertion order. -/
def sqlite_search (store : List CacheRow) (isbn : String) : Option CacheRow :=
  (store.filter (fun r => strLike r.isbn isbn)).head?

/-- The cache insert `sql_tableinsert`: it runs
`INSERT OR IGNORE INTO main VALUES (...)`.  The `main` table is created by
`sql_tablecreate` without any PRIMARY KEY or UNIQUE constraint, so
`OR IGNORE` never has a conflict to ignore and the statement always appends a
row (the quote-doubling in the code only escapes the SQL literal and leaves
the stored values unchanged). -/
def sql_tableinsert (store : List CacheRow) (r : CacheRow) : List CacheRow :=
  store ++ [r]

/-- Decimal digit test on a character, by code point (48–57). -/
def isDigitCh (c : Char) : Bool := 48 ≤ c.toNat && c.toNat ≤ 57

/-- Numeric value of an ISBN character: `X` counts as 10. -/
def isbnCharVal (c : Char) : Nat := if c == 'X' then 10 else c.toNat - 48

/-- Weighted sum for the ISBN-10 check: weights 10, 9, …, 1 left to right. -/
def weightedSum10 : Nat → List Char → Nat
  | _, [] => 0
  | w, c :: cs => w * isbnCharVal c + weightedSum10 (w - 1) cs

/-- Weighted sum for the ISBN-13 check: alternating weights 1, 3, 1, 3, … -/
def weightedSum13 : Bool → List Char → Nat
  | _, [] => 0
  | odd?, c :: cs => (if odd? then 3 else 1) * isbnCharVal c + weightedSum13 (!odd?) cs

/-- Modelled from the spec: a canonical ISBN-10 (§3 of the spec; the
repository delegates validation to the external `isbnlib` package, whose code
is not part of `src/`): ten characters, the first nine decimal digits, every
character a digit or `X`, and weighted sum divisible by 11. -/
def is_isbn10_spec (s : String) : Bool :=
  let cs := s.toList
  cs.length == 10 && (cs.take 9).all isDigitCh
    && cs.all (fun c => isDigitCh c || c == 'X')
    && weightedSum10 10 cs % 11 == 0

/-- Modelled from the spec: a canonical ISBN-13 — thirteen decimal digits
with alternating-weight sum divisible by 10. -/
def is_isbn13_spec (s : String) : Bool :=
  let cs := s.toList
  cs.length == 13 && cs.all isDigitCh && weightedSum13 false cs % 10 == 0

/-- Modelled from the spec: canonical form of an ISBN — a valid ISBN-10 or
ISBN-13. -/
def isCanonIsbn (s : String) : Bool := is_isbn10_spec s || is_isbn13_spec s

/-- All characters of the string are decimal digits or `X` — the alphabet of
canonical ISBNs. -/
def isbnAlphabet (s : String) : Bool :=
  s.toList.all (fun c => isDigitCh c || c == 'X')

/-- State of the per-row resolution in the `__main__` block: the Python
variables `lcc` (initially `None`) and `source` (initially unbound, modelled
as `none`), plus the trace of adapters actually called, in order. -/
structure ResState where
  lcc : Option String
  source : Option String
  calls : List String
deriving DecidableEq, Repr

/-- One `if not lcc: lcc = <adapter>(fixed_isbn); if lcc: source = <name>`
block of the chain.  `fetch name` is the value the named adapter would return
if called; the adapter is invoked (and recorded in `calls`) exactly when the
running `lcc` is falsy, and `lcc` is overwritten with its result even when
that result is falsy. -/
def tryAdapter (fetch : String → Option String) (s : ResState) (name : String) : ResState :=
  if pyTruthy s.lcc then s
  else
    let r := fetch name
    { lcc := r
      source := if pyTruthy r then some name else s.source
      calls := s.calls ++ [name] }

/-- The literal fourteen-adapter fallback chain of the `__main__` block, in
source order: OCLC Classify, Harvard, Library of Congress, then the
Blacklight-scraped catalogs. -/
def adapterChain (fetch : String → Option String) (s : ResState) : ResState :=
  let s := tryAdapter fetch s "OCLC"
  let s := tryAdapter fetch s "Harvard"
  let s := tryAdapter fetch s "LofC"
  let s := tryAdapter fetch s "Stanford"
  let s := tryAdapter fetch s "Yale"
  let s := tryAdapter fetch s "JHU"
  let s := tryAdapter fetch s "Columbia"
  let s := tryAdapter fetch s "Cornell"
  let s := tryAdapter fetch s "PennState"
  let s := tryAdapter fetch s "NCSU"
  let s := tryAdapter fetch s "UMichigan"
  let s := tryAdapter fetch s "UWisc"
  let s := tryAdapter fetch s "IndianaU"
  let s := tryAdapter fetch s "Duke"
  s

/-- The fixed adapter priority order, as the source names appear in the
chain. -/
def adapterOrder : List String :=
  ["OCLC", "Harvard", "LofC", "Stanford", "Yale", "JHU", "Columbia",
   "Cornell", "PennState", "NCSU", "UMichigan", "UWisc", "IndianaU", "Duke"]

/-- Resolution of one normalized ISBN: `lcc` starts as `None`; a cache hit
(`if sql_entry:`) seeds `lcc` and `source` from the cached row (a returned
row is a non-empty tuple, hence always truthy in Python); then the adapter
chain runs. -/
def resolveRow (sql_entry : Option CacheRow) (fetch : String → Option String) : ResState :=
  let s0 : ResState := ⟨none, none, []⟩
  let s1 : ResState :=
    match sql_entry with
    | some e => { s0 with lcc := some e.lc, source := some e.source }
    | none => s0
  adapterChain fetch s1

/-- The output-row construction at the bottom of the per-row loop
(`newdata = ...`), keyed on `outchoice` (1 = repeat original data) and the
truthiness of the final `lcc`.  When `lcc` is truthy the Python variable
`source` is always bound; the `getD ""` defaults are never reached on that
path. -/
def newdata (outchoice : Nat) (row : List String) (original_isbn fixed_isbn : String)
    (lcc : Option String) (source : String) : List String :=
  if outchoice == 1 && !(pyTruthy lcc) then row ++ ["", "NOTFOUND"]
  else if outchoice == 1 && pyTruthy lcc then row ++ [lcc.getD "", source]
  else if !(outchoice == 1) && pyTruthy lcc then [original_isbn, lcc.getD "", fixed_isbn, source]
  else [original_isbn, "", fixed_isbn, "NOTFOUND"]

/-- The write-through guard `if lcc and not sql_entry:` followed by
`sql_tableinsert(ci, 'main', ISBN=fixed_isbn, LC=lcc, LCSource=source)`.
When the guard holds, `lcc` is a truthy string and `source` is bound, so the
`getD ""` defaults are never reached. -/
def writeThrough (store : List CacheRow) (fixed : String)
    (sql_entry : Option CacheRow) (s : ResState) : List CacheRow :=
  if pyTruthy s.lcc && sql_entry.isNone then
    sql_tableinsert store ⟨fixed, s.lcc.getD "", s.source.getD ""⟩
  else store

/-- Python list indexing `row[i]` with negative-index wraparound; `none`
models an `IndexError`. -/
def pyIndex (xs : List String) (i : Int) : Option String :=
  if 0 ≤ i then xs.get? i.toNat
  else if 0 ≤ (xs.length : Int) + i then xs.get? ((xs.length : Int) + i).toNat
  else none

/-- Result of processing one data row: the row written to the output file (if
any) and the cache contents afterwards. -/
structure RowOutcome where
  written : Option (List String)
  store' : List CacheRow
deriving DecidableEq, Repr

/-- The per-row body of the main loop, common to both files, parametric in
the run configuration (`outchoice`, 0-based `colchoice`), the cache
contents, the normalizer `fix` (`fix_isbn`, verified separately) and the
adapter oracle `fetch`.  Faithful transcription notes:
* an empty row trips `row[0]` inside `try`/`except` → `continue`;
* `len(row) < colchoice - 1` logs "Not enough columns" and writes nothing;
* an empty first field logs "Missing ISBN" and writes `row + ['','']` only in
  repeat mode — the `continue` sits inside `if outchoice == 1`, but the
  surrounding `if`/`else` ends the iteration in simple mode too;
* `row[colchoice]` is outside any `try`: an out-of-range configured column
  raises `IndexError` out of the loop;
* the too-short test exits early (writing `row + ['','']`) only in repeat
  mode; in simple mode control falls through to `fix_isbn`;
* an unfixable ISBN writes `row + ['','']` in repeat mode and nothing in
  simple mode. -/
def processRow (outchoice : Nat) (colchoice : Int) (store : List CacheRow)
    (fix : String → Option String) (fetch : String → Option String)
    (row : List String) : PyOutcome RowOutcome :=
  if row.isEmpty then .ret ⟨none, store⟩
  else if (row.length : Int) < colchoice - 1 then .ret ⟨none, store⟩
  else if row.headD "" == "" then
    if outchoice == 1 then .ret ⟨some (row ++ ["", ""]), store⟩
    else .ret ⟨none, store⟩
  else
    match pyIndex row colchoice with
    | none => .raised
    | some original_isbn =>
      if original_isbn.length < 10 && outchoice == 1 then
        .ret ⟨some (row ++ ["", ""]), store⟩
      else
        let invalidOut : PyOutcome RowOutcome :=
          if outchoice == 1 then .ret ⟨some (row ++ ["", ""]), store⟩
          else .ret ⟨none, store⟩
        match fix original_isbn with
        | none => invalidOut
        | some fixed =>
          if fixed == "" then invalidOut
          else
            let sql_entry := sqlite_search store fixed
            let s := resolveRow sql_entry fetch
            .ret ⟨some (newdata outchoice row original_isbn fixed s.lcc (s.source.getD "")),
                  writeThrough store fixed sql_entry s⟩

/-- The `isbnlib` primitives used by `fix_isbn`, taken as opaque
string-level functions (the library is an external dependency, not part of
`src/`).  `get_canonical_isbn` can return Python `None`, modelled as `none`;
the other stage functions return strings, which is how `fix_isbn` consumes
them (`len`, equality, and passing along). -/
structure IsbnLib where
  canonical : String → String
  is_isbn10 : String → Bool
  is_isbn13 : String → Bool
  get_isbnlike : String → String
  clean : String → String
  get_canonical_isbn : String → Option String

/-- The condition under which the first block of `fix_isbn` returns
directly: `isbnlib.canonical` yields a 10- or 13-character string passing the
matching check-digit validation. -/
def directValid (lib : IsbnLib) (isbn : String) : Bool :=
  let lib_isbn := lib.canonical isbn
  if lib_isbn.length == 10 || lib_isbn.length == 13 then
    if lib_isbn.length == 10 then lib.is_isbn10 lib_isbn else lib.is_isbn13 lib_isbn
  else false

/-- Transcription of `fix_isbn`.  Stages, in source order: direct
canonicalization and validation; `< 10` length guard; `get_isbnlike` on the
*original* argument; `clean`; `get_canonical_isbn`; `< 10` length guard; the
(unreachable) `if not lib_isbn` guard; final length and check-digit
validation.  When `get_canonical_isbn` returns `None`, the next `len(...)`
raises `TypeError`, modelled as `.raised`. -/
def fix_isbn (lib : IsbnLib) (isbn : String) : PyOutcome (Option String) :=
  let lib_isbn := lib.canonical isbn
  if directValid lib isbn then .ret (some lib_isbn)
  else if lib_isbn.length < 10 then .ret none
  else
    let lib_isbn := lib.get_isbnlike isbn
    if lib_isbn.length < 10 then .ret none
    else
      let lib_isbn := lib.clean lib_isbn
      if lib_isbn.length < 10 then .ret none
      else
        match lib.get_canonical_isbn lib_isbn with
        | none => .raised
        | some lib_isbn =>
          if lib_isbn.length < 10 then .ret none
          else if lib_isbn == "" then .ret none
          else if lib_isbn.length == 10 || lib_isbn.length == 13 then
            if (if lib_isbn.length == 10 then lib.is_isbn10 lib_isbn else lib.is_isbn13 lib_isbn)
            then .ret (some lib_isbn) else .ret none
          else .ret none

/-- A minimal model of Python values decoded from JSON, as probed by the
Harvard adapter: `None`, strings, lists and string-keyed dicts. -/
inductive JVal where
  | jnull
  | jstr (s : String)
  | jlist (xs : List JVal)
  | jdict (entries : List (String × JVal))

/-- Is the value the given Python string? (Python `==` between a non-string
and a string is `False`, never an error.) -/
def jvalIsStr (v : JVal) (s : String) : Bool :=
  match v with
  | .jstr t => t == s
  | _ => false

/-- Python truthiness of a JSON value: `None`, `''`, `[]` and `{}` are
falsy. -/
def pyTruthyJ : JVal → Bool
  | .jnull => false
  | .jstr s => !(s == "")
  | .jlist xs => !xs.isEmpty
  | .jdict es => !es.isEmpty

/-- Python subscripting `v[k]` with a string key: a key lookup on a dict
(`KeyError` when absent), a `TypeError` on anything else; both model as
`.error`. -/
def pyGetKey (v : JVal) (k : String) : Except Unit JVal :=
  match v with
  | .jdict es =>
    match es.find? (fun e => e.1 == k) with
    | some e => .ok e.2
    | none => .error ()
  | _ => .error ()

/-- Python membership `k in v` for a string `k`: substring test on a string,
element test on a list, key test on a dict, `TypeError` on `None`. -/
def pyContains (v : JVal) (k : String) : Except Unit Bool :=
  match v with
  | .jstr s => .ok (strIn k s)
  | .jlist xs => .ok (xs.any (fun x => jvalIsStr x k))
  | .jdict es => .ok (es.any (fun e => e.1 == k))
  | .jnull => .error ()

/-- Python iteration `for x in v`: over a dict it yields the keys (as
strings), over a list the elements, over a string its characters, and raises
`TypeError` on `None`. -/
def pyIter (v : JVal) : Except Unit (List JVal) :=
  match v with
  | .jdict es => .ok (es.map (fun e => JVal.jstr e.1))
  | .jlist xs => .ok xs
  | .jstr s => .ok (s.toList.map (fun c => JVal.jstr (String.singleton c)))
  | .jnull => .error ()

/-- Outcome of the HTTP request made by `json_query`: the request can raise,
or return a response with an `ok` status flag and a body on which `r.json()`
either fails (`.error`) or yields a JSON value. -/
inductive HarvHttp where
  | reqExn
  | resp (ok : Bool) (body : Except Unit JVal)

/-- Transcription of `json_query`: any request exception, non-ok status or
JSON decode failure returns `None`; a decoded list is unwrapped to its first
element (`wq[0]`, raising `IndexError` on an empty list); a dict is returned
as is; anything else returns `None`. -/
def json_query (h : HarvHttp) : PyOutcome JVal :=
  match h with
  | .reqExn => .ret .jnull
  | .resp false _ => .ret .jnull
  | .resp true (.error _) => .ret .jnull
  | .resp true (.ok wq) =>
    match wq with
    | .jlist [] => .raised
    | .jlist (x :: _) => .ret x
    | .jdict es => .ret (.jdict es)
    | _ => .ret .jnull

/-- The `for volfield in record_data:` loop of `harvard_get`, iterating over
`ks` (the iteration items of `record_data`).  For each item equal to the
string `"classification"` the body subscripts `record_data`, unwraps a list
to its first element (`IndexError` on an empty list), and returns the
`#text` of the entry when its `@authority` is `lcc`; otherwise the loop
continues (`h_lcc` is `''` throughout, so the `and h_lcc == ''` conjunct is
always true). -/
def harvLoop (rd : JVal) : List JVal → PyOutcome JVal
  | [] => .ret .jnull
  | k :: ks =>
    if jvalIsStr k "classification" then
      match pyGetKey rd "classification" with
      | .error _ => .raised
      | .ok cls =>
        match (match cls with
               | .jlist [] => PyOutcome.raised
               | .jlist (x :: _) => PyOutcome.ret x
               | other => PyOutcome.ret other) with
        | .raised => .raised
        | .diverged => .diverged
        | .ret h_lcc_j =>
          match pyGetKey h_lcc_j "@authority" with
          | .error _ => .raised
          | .ok auth =>
            if jvalIsStr auth "lcc" then
              match pyGetKey h_lcc_j "#text" with
              | .error _ => .raised
              | .ok t => .ret t
            else harvLoop rd ks
    else harvLoop rd ks

/-- The part of `harvard_get` after the `if record_data['items']:` gate has
passed with the truthy value `itemsv`: when `"mods" in record_data['items']`,
`record_data` is rebound to `record_data['items']['mods']`; otherwise a
warning is logged and `record_data` stays the full top-level value; then the
classification loop runs over its iteration items. -/
def harvMods (rd itemsv : JVal) : PyOutcome JVal :=
  match pyContains itemsv "mods" with
  | .error _ => .raised
  | .ok b =>
    match (if b then pyGetKey itemsv "mods" else .ok rd) with
    | .error _ => .raised
    | .ok rd2 =>
      match pyIter rd2 with
      | .error _ => .raised
      | .ok ks => harvLoop rd2 ks

/-- Transcription of `harvard_get` as written in `src/main.py`: the
`json_query` call is inside `try`/`except`, but the subsequent
`record_data['items']` is not guarded, so when `json_query` returns `None`
(any network failure) the subscript raises `TypeError` out of the adapter. -/
def harvard_get_main (h : HarvHttp) : PyOutcome JVal :=
  match json_query h with
  | .raised => .ret .jnull
  | .diverged => .diverged
  | .ret rd =>
    match pyGetKey rd "items" with
    | .error _ => .raised
    | .ok itemsv =>
      if pyTruthyJ itemsv then harvMods rd itemsv
      else .ret .jnull

/-- Transcription of `harvard_get` as written in `src/lcc_simple.py`: same as
the `main.py` variant, but `record_data['items']` is first probed inside
`try`/`except` returning `None`, so a failed `json_query` (or a record
without an `items` key) is equivalent to NotFound. -/
def harvard_get_simple (h : HarvHttp) : PyOutcome JVal :=
  match json_query h with
  | .raised => .ret .jnull
  | .diverged => .diverged
  | .ret rd =>
    match pyGetKey rd "items" with
    | .error _ => .ret .jnull
    | .ok itemsv =>
      if pyTruthyJ itemsv then harvMods rd itemsv
      else .ret .jnull

/-- A `mostPopular` element under the recommended `lcc` element; `nsfa` is
its `nsfa` attribute (`none` models a missing attribute, whose access raises
`KeyError`). -/
structure MostPop where
  nsfa : Option String
deriving DecidableEq, Repr

/-- A `work` element of a "multiple works" response: its optional `wi` and
`schemes` attributes (missing attributes are skipped by `except: continue`
in the source). -/
structure WorkElem where
  wi : Option String
  schemes : Option String
deriving DecidableEq, Repr

/-- The parts of a parsed OCLC Classify XML document that `get_oclc_data`
probes: presence of a `response` element, its `code` attribute, presence of a
`recommendations` element, the number of `lcc` elements in the whole
document, the `mostPopular` children of each `lcc` element *under
`recommendations`* (only the first such element is read), presence of a
`works` element and its `work` children. -/
structure OclcDoc where
  hasResponse : Bool
  code : Option String
  hasRecommendations : Bool
  docLccCount : Nat
  recLccs : List (List MostPop)
  hasWorks : Bool
  works : List WorkElem
deriving DecidableEq, Repr

/-- Outcome of the HTTP request made by `get_oclc_data`: a request exception,
or a response with an `ok` flag and a body that `xml.dom.minidom.parseString`
either fails to parse (raising, unguarded in the source) or parses to a
document. -/
inductive OclcBody where
  | unparseable
  | parsed (d : OclcDoc)
deriving DecidableEq, Repr

/-- HTTP-level outcome for one OCLC query. -/
inductive OclcHttp where
  | reqExn
  | httpResp (ok : Bool) (body : OclcBody)
deriving DecidableEq, Repr

/-- The `for work in works.getElementsByTagName('work')` loop: the first work
that has both a `wi` and a `schemes` attribute with `'LCC' in schemes`
supplies the `wi` for the recursive call (the loop `break`s right after). -/
def firstQualifying : List WorkElem → Option String
  | [] => none
  | w :: ws =>
    match w.wi with
    | none => firstQualifying ws
    | some m_wi =>
      match w.schemes with
      | none => firstQualifying ws
      | some sch => if strIn "LCC" sch then some m_wi else firstQualifying ws

/-- The `for mostPopular in local_lcc.getElementsByTagName('mostPopular')`
loop: each iteration reads `attributes["nsfa"].value` (raising `KeyError`
when absent, unguarded) and overwrites `lcc_value`, so the last element
wins. -/
def lastNsfa : List MostPop → Except Unit (Option String)
  | [] => .ok none
  | m :: ms =>
    match m.nsfa with
    | none => .error ()
    | some v =>
      match lastNsfa ms with
      | .error e => .error e
      | .ok rest => .ok (some (rest.getD v))

/-- The `respCode == '0' or respCode == '2'` branch of `get_oclc_data`:
`recommendations = ...[0]` raises `IndexError` when the element is missing;
a DOM element is always truthy, so `if recommendations:` and
`if local_lcc:` always pass; the document-wide `lcc` count gates reading the
first `lcc` element *under `recommendations`*, which raises `IndexError`
when the count comes from elsewhere in the document. -/
def oclcBranch02 (d : OclcDoc) : PyOutcome (Option String) :=
  if d.hasRecommendations then
    if d.docLccCount > 0 then
      match d.recLccs with
      | [] => .raised
      | mps :: _ =>
        match lastNsfa mps with
        | .error _ => .raised
        | .ok v => .ret v
    else .ret none
  else .raised

/-- Transcription of `get_oclc_data(parmtype, parmvalue)` over a response
oracle giving the HTTP outcome of each query.  A request exception or a
URL-encoding failure returns `None` (both are caught and logged), as does a
non-ok HTTP status; an unparseable body raises out of the function
(`parseString` is outside every `try`).  On a parsed document: a missing
`response` element or `code` attribute raises; code `0`/`2` reads the
recommended classification; code `4` recurses with the first qualifying
work's `wi` — the code puts no bound on this recursion, so the model spends
one unit of `fuel` per recursive call and reports `.diverged` when the
budget is exhausted; every other code (including the quiet `102`) leaves
`lcc_value` as `None`.  The final `if lcc_value:` maps a falsy value to
`None`. -/
def get_oclc_data (fuel : Nat) (oracle : String → String → OclcHttp)
    (parmtype parmvalue : String) : PyOutcome (Option String) :=
  match oracle parmtype parmvalue with
  | .reqExn => .ret none
  | .httpResp false _ => .ret none
  | .httpResp true .unparseable => .raised
  | .httpResp true (.parsed d) =>
    if d.hasResponse then
      match d.code with
      | none => .raised
      | some code =>
        let branch : PyOutcome (Option String) :=
          if code == "0" || code == "2" then oclcBranch02 d
          else if code == "4" then
            if d.hasWorks then
              match firstQualifying d.works with
              | some m_wi =>
                match fuel with
                | 0 => .diverged
                | n + 1 => get_oclc_data n oracle "wi" m_wi
              | none => .ret none
            else .raised
          else .ret none
        match branch with
        | .raised => .raised
        | .diverged => .diverged
        | .ret v => .ret (if pyTruthy v then v else none)
    else .raised

/-- Does this HTTP outcome make `get_oclc_data` recurse?  Exactly the parsed,
ok-status responses whose `response` code is `4` with a `works` element
containing a qualifying work. -/
def respRecurses (r : OclcHttp) : Bool :=
  match r with
  | .httpResp true (.parsed d) =>
    d.hasResponse &&
      (match d.code with
       | some c => c == "4"
       | none => false)
      && d.hasWorks && (firstQualifying d.works).isSome
  | _ => false

/-- Fixture: an adapter oracle where only the Library of Congress adapter
finds a call number. -/
def fetchLofC : String → Option String :=
  fun n => if n == "LofC" then some "QA76.73" else none

/-- Fixture: an adapter oracle where every adapter reports NotFound. -/
def fetchNone : String → Option String := fun _ => none

/-- Fixture: an adapter oracle where every adapter would return a marker
value (used to show adapters are not consulted on a cache hit). -/
def fetchMarker : String → Option String := fun _ => some "MARKER"

/-- Fixture: an adapter oracle where only OCLC Classify finds a call
number. -/
def fetchOclc : String → Option String :=
  fun n => if n == "OCLC" then some "QA76.9.A25" else none

/-- Fixture: a one-row cache holding a previously resolved ISBN. -/
def storeHit : List CacheRow := [⟨"0306406152", "QA76.9", "OCLC"⟩]

/-- Fixture: a cached record and a conflicting record with the same ISBN but
a different call number and source. -/
def rowA : CacheRow := ⟨"0306406152", "QA76.73.P98", "OCLC"⟩

/-- Fixture: conflicting record for the same ISBN as `rowA`. -/
def rowB : CacheRow := ⟨"0306406152", "ZZ99.9", "Harvard"⟩

/-- Fixture: an OCLC response oracle that raises a request exception for
every query. -/
def oclcExnOracle : String → String → OclcHttp := fun _ _ => .reqExn

/-- Fixture: a "multiple works" OCLC document whose first work qualifies for
the work-identifier recursion. -/
def oclcDoc4 : OclcDoc :=
  ⟨true, some "4", false, 0, [], true, [⟨some "w1", some "LCC"⟩]⟩

/-- Fixture: an OCLC response oracle that answers *every* query — including
the `wi` follow-ups — with the "multiple works" document `oclcDoc4`. -/
def oclcAll4Oracle : String → String → OclcHttp :=
  fun _ _ => .httpResp true (.parsed oclcDoc4)

/-- Fixture: an `isbnlib` model in which every primitive is the identity-like
function and only `"0306406152"` validates as an ISBN-10. -/
def libFix : IsbnLib :=
  { canonical := fun s => s
    is_isbn10 := fun s => s == "0306406152"
    is_isbn13 := fun _ => false
    get_isbnlike := fun s => s
    clean := fun s => s
    get_canonical_isbn := fun s => some s }

/-- Fixture: a normalizer that maps every raw token to the canonical ISBN
`"0306406152"`. -/
def fixConst : String → Option String := fun _ => some "0306406152"

theorem adapterChain_eq_foldl (fetch : String → Option String) (s : ResState) :
    adapterChain fetch s = List.foldl (tryAdapter fetch) s adapterOrder := rfl

theorem chain_skip (fetch : String → Option String) (names : List String) (s : ResState)
    (h : pyTruthy s.lcc = true) :
    List.foldl (tryAdapter fetch) s names = s := by
  induction names with
  | nil => rfl
  | cons n ns ih => simp only [List.foldl, tryAdapter, h, if_pos, ih]

theorem chain_allMiss (fetch : String → Option String) (names : List String) (s : ResState)
    (h : pyTruthy s.lcc = false)
    (hall : ∀ n ∈ names, pyTruthy (fetch n) = false) :
    pyTruthy (List.foldl (tryAdapter fetch) s names).lcc = false
    ∧ (List.foldl (tryAdapter fetch) s names).source = s.source
    ∧ (List.foldl (tryAdapter fetch) s names).calls = s.calls ++ names := by
  induction names generalizing s with
  | nil => simpa using h
  | cons n ns ih =>
    have hn : pyTruthy (fetch n) = false := hall n (List.mem_cons_self n ns)
    have hstep : tryAdapter fetch s n =
        { lcc := fetch n, source := s.source, calls := s.calls ++ [n] } := by
      simp [tryAdapter, h, hn]
    have := ih { lcc := fetch n, source := s.source, calls := s.calls ++ [n] } hn
      (fun m hm => hall m (List.mem_cons_of_mem n hm))
    simpa [hstep, List.append_assoc] using this

theorem chain_hit (fetch : String → Option String) (pre post : List String) (hit : String)
    (s : ResState) (h : pyTruthy s.lcc = false)
    (hpre : ∀ n ∈ pre, pyTruthy (fetch n) = false)
    (hhit : pyTruthy (fetch hit) = true) :
    List.foldl (tryAdapter fetch) s (pre ++ hit :: post) =
      ⟨fetch hit, some hit, s.calls ++ (pre ++ [hit])⟩ := by
  induction pre generalizing s with
  | nil =>
    have hstep : tryAdapter fetch s hit =
        { lcc := fetch hit, source := some hit, calls := s.calls ++ [hit] } := by
      simp [tryAdapter, h, hhit]
    simp only [List.nil_append, List.foldl, hstep]
    exact chain_skip fetch post _ hhit
  | cons n ns ih =>
    have hn : pyTruthy (fetch n) = false := hpre n (List.mem_cons_self n ns)
    have hstep : tryAdapter fetch s n =
        { lcc := fetch n, source := s.source, calls := s.calls ++ [n] } := by
      simp [tryAdapter, h, hn]
    have := ih { lcc := fetch n, source := s.source, calls := s.calls ++ [n] } hn
      (fun m hm => hpre m (List.mem_cons_of_mem n hm))
    simpa [hstep, List.append_assoc] using this

theorem chain_source_of_truthy (fetch : String → Option String) (names : List String)
    (s : ResState) (h : pyTruthy s.lcc = false)
    (ht : pyTruthy (List.foldl (tryAdapter fetch) s names).lcc = true) :
    ∃ n ∈ names, (List.foldl (tryAdapter fetch) s names).lcc = fetch n
      ∧ (List.foldl (tryAdapter fetch) s names).source = some n := by
  induction names generalizing s with
  | nil => rw [List.foldl_nil] at ht; rw [h] at ht; cases ht
  | cons n ns ih =>
    by_cases hr : pyTruthy (fetch n) = true
    · have hstep : tryAdapter fetch s n =
          { lcc := fetch n, source := some n, calls := s.calls ++ [n] } := by
        simp [tryAdapter, h, hr]
      refine ⟨n, List.mem_cons_self n ns, ?_⟩
      simp only [List.foldl, hstep]
      rw [chain_skip fetch ns _ hr]
      exact ⟨rfl, rfl⟩
    · have hr' : pyTruthy (fetch n) = false := by
        cases hfn : pyTruthy (fetch n) with
        | true => exact absurd hfn hr
        | false => rfl
      have hstep : tryAdapter fetch s n =
          { lcc := fetch n, source := s.source, calls := s.calls ++ [n] } := by
        simp [tryAdapter, h, hr']
      rw [List.foldl_cons, hstep] at ht ⊢
      obtain ⟨m, hm, h1, h2⟩ := ih _ hr' ht
      exact ⟨m, List.mem_cons_of_mem n hm, h1, h2⟩

theorem sqlite_search_cons (a : CacheRow) (l : List CacheRow) (i : String) :
    sqlite_search (a :: l) i =
      if strLike a.isbn i then some a else sqlite_search l i := by
  simp only [sqlite_search, List.filter_cons]
  split <;> simp

theorem sqlite_search_mem (store : List CacheRow) (i : String) (r : CacheRow)
    (h : sqlite_search store i = some r) :
    r ∈ store ∧ strLike r.isbn i = true := by
  induction store with
  | nil => simp [sqlite_search] at h
  | cons a l ih =>
    rw [sqlite_search_cons] at h
    cases ha : strLike a.isbn i with
    | true =>
      rw [if_pos ha] at h
      have hr := Option.some.inj h
      subst hr
      exact ⟨List.mem_cons_self a l, ha⟩
    | false =>
      rw [if_neg (by simp [ha])] at h
      obtain ⟨h1, h2⟩ := ih h
      exact ⟨List.mem_cons_of_mem a h1, h2⟩

theorem sqlite_search_isSome (store : List CacheRow) (i : String) :
    (sqlite_search store i).isSome = true ↔ ∃ r ∈ store, strLike r.isbn i = true := by
  induction store with
  | nil => simp [sqlite_search]
  | cons a l ih =>
    rw [sqlite_search_cons]
    cases ha : strLike a.isbn i with
    | true =>
      rw [if_pos rfl]
      simp only [Option.isSome_some, true_iff]
      exact ⟨a, List.mem_cons_self a l, ha⟩
    | false =>
      rw [if_neg (by simp), ih]
      constructor
      · rintro ⟨r, hr, hl⟩
        exact ⟨r, List.mem_cons_of_mem a hr, hl⟩
      · rintro ⟨r, hr, hl⟩
        rcases List.mem_cons.mp hr with rfl | hr'
        · rw [ha] at hl; cases hl
        · exact ⟨r, hr', hl⟩

theorem likeM_nowild (p : List Char) (s : List Char)
    (hp : ∀ c ∈ p, ¬c = '%' ∧ ¬c = '_') :
    likeM p s = true ↔ p.map Char.toLower = s.map Char.toLower := by
  induction p generalizing s with
  | nil =>
    cases s <;> simp [likeM]
  | cons a ps ih =>
    have ha := hp a (List.mem_cons_self a ps)
    have h1 : (a == '%') = false := by simpa using ha.1
    have h2 : (a == '_') = false := by simpa using ha.2
    cases s with
    | nil => simp [likeM, h1, h2]
    | cons c s' =>
      simp only [likeM, h1, h2, Bool.false_eq_true, if_false, List.map_cons,
        Bool.and_eq_true, beq_iff_eq, List.cons.injEq]
      rw [ih s' (fun d hd => hp d (List.mem_cons_of_mem a hd))]

theorem toLower_of_digit (c : Char) (h : isDigitCh c = true) : c.toLower = c := by
  have hb : 48 ≤ c.toNat ∧ c.toNat ≤ 57 := by simpa [isDigitCh] using h
  simp only [Char.toLower]
  rw [if_neg]
  omega

theorem isbnChar_lower_inj (c₁ c₂ : Char)
    (h₁ : isDigitCh c₁ = true ∨ c₁ = 'X') (h₂ : isDigitCh c₂ = true ∨ c₂ = 'X')
    (h : c₁.toLower = c₂.toLower) : c₁ = c₂ := by
  have hX : Char.toLower 'X' = 'x' := by decide
  rcases h₁ with hd₁ | rfl <;> rcases h₂ with hd₂ | rfl
  · rw [toLower_of_digit c₁ hd₁, toLower_of_digit c₂ hd₂] at h; exact h
  · rw [toLower_of_digit c₁ hd₁, hX] at h
    subst h
    simp [isDigitCh] at hd₁
  · rw [toLower_of_digit c₂ hd₂, hX] at h
    rw [← h] at hd₂
    simp [isDigitCh] at hd₂
  · rfl

theorem isbnAlphabet_chars (s : String) (h : isbnAlphabet s = true) :
    ∀ c ∈ s.toList, isDigitCh c = true ∨ c = 'X' := by
  intro c hc
  have h' : isDigitCh c = true ∨ (c == 'X') = true := by
    simpa using (List.all_eq_true.mp h) c hc
  rcases h' with h1 | h2
  · exact Or.inl h1
  · exact Or.inr (by simpa using h2)

theorem isbnAlphabet_nowild (s : String) (h : isbnAlphabet s = true) :
    ∀ c ∈ s.toList, ¬c = '%' ∧ ¬c = '_' := by
  intro c hc
  rcases isbnAlphabet_chars s h c hc with hd | rfl
  · constructor
    · rintro rfl; simp [isDigitCh] at hd
    · rintro rfl; simp [isDigitCh] at hd
  · constructor <;> decide

theorem isCanonIsbn_alphabet (s : String) (h : isCanonIsbn s = true) :
    isbnAlphabet s = true := by
  have h' : is_isbn10_spec s = true ∨ is_isbn13_spec s = true := by
    simpa [isCanonIsbn] using h
  rcases h' with h10 | h13
  · simp only [is_isbn10_spec, Bool.and_eq_true] at h10
    exact h10.1.2
  · simp only [is_isbn13_spec, Bool.and_eq_true] at h13
    simp only [isbnAlphabet, List.all_eq_true] at h13 ⊢
    intro c hc
    have := h13.1.2 c hc
    simp [this]

theorem alphabet_lower_inj (l₁ l₂ : List Char)
    (h₁ : ∀ c ∈ l₁, isDigitCh c = true ∨ c = 'X')
    (h₂ : ∀ c ∈ l₂, isDigitCh c = true ∨ c = 'X')
    (h : l₁.map Char.toLower = l₂.map Char.toLower) : l₁ = l₂ := by
  induction l₁ generalizing l₂ with
  | nil =>
    cases l₂ with
    | nil => rfl
    | cons b bs => simp at h
  | cons a asx ih =>
    cases l₂ with
    | nil => simp at h
    | cons b bs =>
      simp only [List.map_cons, List.cons.injEq] at h
      have hab := isbnChar_lower_inj a b (h₁ a (List.mem_cons_self a asx))
        (h₂ b (List.mem_cons_self b bs)) h.1
      rw [hab, ih bs (fun c hc => h₁ c (List.mem_cons_of_mem a hc))
        (fun c hc => h₂ c (List.mem_cons_of_mem b hc)) h.2]

/-- C1: for every canonical ISBN that misses the cache, the orchestrator
tries the adapters in the fixed order OCLC, Harvard, LofC, Stanford, Yale,
JHU, Columbia, Cornell, PennState, NCSU, UMichigan, UWisc, IndianaU, Duke;
the first adapter returning a non-empty LCC determines the resulting `lcc`
and `source` and ends the calls (later adapters are never invoked), and when
every adapter returns NotFound the final `lcc` is falsy, all fourteen
adapters were called, and the output row carries the NOTFOUND marker in
either output mode. -/
theorem c1_adapter_chain (store : List CacheRow) (f : String)
    (fetch : String → Option String)
    (hmiss : sqlite_search store f = none) :
    (∀ pre hit post, adapterOrder = pre ++ hit :: post →
      (∀ n ∈ pre, pyTruthy (fetch n) = false) →
      pyTruthy (fetch hit) = true →
      resolveRow (sqlite_search store f) fetch = ⟨fetch hit, some hit, pre ++ [hit]⟩)
    ∧ ((∀ n ∈ adapterOrder, fetch n = none) →
      pyTruthy (resolveRow (sqlite_search store f) fetch).lcc = false
      ∧ (resolveRow (sqlite_search store f) fetch).calls = adapterOrder
      ∧ ∀ row orig,
          newdata 1 row orig f (resolveRow (sqlite_search store f) fetch).lcc
              ((resolveRow (sqlite_search store f) fetch).source.getD "")
            = row ++ ["", "NOTFOUND"]
          ∧ newdata 2 row orig f (resolveRow (sqlite_search store f) fetch).lcc
              ((resolveRow (sqlite_search store f) fetch).source.getD "")
            = [orig, "", f, "NOTFOUND"]) := by
  rw [hmiss]
  have hfold : resolveRow none fetch
      = List.foldl (tryAdapter fetch) ⟨none, none, []⟩ adapterOrder := rfl
  constructor
  · intro pre hit post hsplit hpre hhit
    rw [hfold, hsplit]
    have := chain_hit fetch pre post hit ⟨none, none, []⟩ rfl hpre hhit
    simpa using this
  · intro hall
    have hall' : ∀ n ∈ adapterOrder, pyTruthy (fetch n) = false := by
      intro n hn; rw [hall n hn]; rfl
    have hmissall := chain_allMiss fetch adapterOrder ⟨none, none, []⟩ rfl hall'
    rw [hfold]
    obtain ⟨ha, _, hc⟩ := hmissall
    refine ⟨ha, by simpa using hc, ?_⟩
    intro row orig
    constructor
    · simp [newdata, ha]
    · simp [newdata, ha]

theorem c1_adapter_chain_witness :
    pyTruthy (fetchLofC "LofC") = true
    ∧ resolveRow (sqlite_search [] "0306406152") fetchLofC
        = ⟨some "QA76.73", some "LofC", ["OCLC", "Harvard", "LofC"]⟩ :=
  ⟨by decide, by
    have h := (c1_adapter_chain [] "0306406152" fetchLofC (by decide)).1
      ["OCLC", "Harvard"] "LofC"
      ["Stanford", "Yale", "JHU", "Columbia", "Cornell", "PennState", "NCSU",
       "UMichigan", "UWisc", "IndianaU", "Duke"]
      rfl (by decide) (by decide)
    exact h⟩

/-- C2: when the cache lookup returns a record — the cache invariant (rows
are only ever written with a truthy `lcc`, see the C3 theorem) supplies the
hypothesis that the cached call number is non-empty — the row resolves to
that record's LCC and source and the adapter call trace is empty: no remote
source is invoked. -/
theorem c2_cache_hit_no_adapters (store : List CacheRow) (f : String)
    (fetch : String → Option String) (e : CacheRow)
    (hwf : ∀ r ∈ store, ¬r.lc = "")
    (hhit : sqlite_search store f = some e) :
    resolveRow (sqlite_search store f) fetch = ⟨some e.lc, some e.source, []⟩ := by
  rw [hhit]
  have hmem := (sqlite_search_mem store f e hhit).1
  have hs : pyTruthy (some e.lc) = true := by
    simp [pyTruthy, hwf e hmem]
  show adapterChain fetch ⟨some e.lc, some e.source, []⟩ = _
  rw [adapterChain_eq_foldl]
  exact chain_skip fetch adapterOrder _ hs

theorem c2_cache_hit_no_adapters_witness :
    sqlite_search storeHit "0306406152" = some ⟨"0306406152", "QA76.9", "OCLC"⟩
    ∧ resolveRow (sqlite_search storeHit "0306406152") fetchMarker
        = ⟨some "QA76.9", some "OCLC", []⟩ :=
  ⟨by decide, by
    exact c2_cache_hit_no_adapters storeHit "0306406152" fetchMarker
      ⟨"0306406152", "QA76.9", "OCLC"⟩ (by decide) (by decide)⟩

/-- C3: the cache is written exactly on a remote resolution: the store
changes iff the lookup missed and the final `lcc` is truthy; a cache hit is
never re-inserted; an unresolved (falsy-`lcc`) row is never inserted, so no
NOTFOUND outcome reaches the cache; and the row that is inserted carries a
non-empty call number and the name of one of the fourteen adapters — never
the string "NOTFOUND". -/
theorem c3_write_through_guard (store : List CacheRow) (f : String)
    (fetch : String → Option String) :
    (writeThrough store f (sqlite_search store f)
        (resolveRow (sqlite_search store f) fetch) ≠ store
      ↔ sqlite_search store f = none
        ∧ pyTruthy (resolveRow (sqlite_search store f) fetch).lcc = true)
    ∧ (∀ e, sqlite_search store f = some e →
        writeThrough store f (sqlite_search store f)
          (resolveRow (sqlite_search store f) fetch) = store)
    ∧ (pyTruthy (resolveRow (sqlite_search store f) fetch).lcc = false →
        writeThrough store f (sqlite_search store f)
          (resolveRow (sqlite_search store f) fetch) = store)
    ∧ (sqlite_search store f = none →
        pyTruthy (resolveRow (sqlite_search store f) fetch).lcc = true →
        ∃ l n, n ∈ adapterOrder ∧ ¬l = "" ∧ ¬n = "NOTFOUND"
          ∧ (resolveRow (sqlite_search store f) fetch).lcc = some l
          ∧ (resolveRow (sqlite_search store f) fetch).source = some n
          ∧ writeThrough store f (sqlite_search store f)
              (resolveRow (sqlite_search store f) fetch) = store ++ [⟨f, l, n⟩]) := by
  have happend : ∀ r : CacheRow, store ++ [r] ≠ store := by
    intro r h
    have := congrArg List.length h
    simp at this
  refine ⟨?_, ?_, ?_, ?_⟩
  · constructor
    · intro hne
      by_cases hg : (pyTruthy (resolveRow (sqlite_search store f) fetch).lcc
          && (sqlite_search store f).isNone) = true
      · obtain ⟨h1, h2⟩ := Bool.and_eq_true_iff.mp hg
        exact ⟨Option.isNone_iff_eq_none.mp h2, h1⟩
      · exact absurd (by simp [writeThrough, hg]) hne
    · rintro ⟨hm, ht⟩
      have hg : (pyTruthy (resolveRow (sqlite_search store f) fetch).lcc
          && (sqlite_search store f).isNone) = true := by
        rw [ht, hm]; rfl
      simp only [writeThrough, hg, if_pos]
      exact happend _
  · intro e he
    simp [writeThrough, he]
  · intro ht
    simp [writeThrough, ht]
  · intro hm ht
    have hsrc : ∃ n ∈ adapterOrder,
        (resolveRow (sqlite_search store f) fetch).lcc = fetch n
        ∧ (resolveRow (sqlite_search store f) fetch).source = some n := by
      rw [hm] at ht ⊢
      exact chain_source_of_truthy fetch adapterOrder ⟨none, none, []⟩ rfl ht
    obtain ⟨n, hn, hlcc, hsource⟩ := hsrc
    obtain ⟨l, hl, hlne⟩ : ∃ l, (resolveRow (sqlite_search store f) fetch).lcc = some l
        ∧ ¬l = "" := by
      cases hval : (resolveRow (sqlite_search store f) fetch).lcc with
      | none => rw [hval] at ht; cases ht
      | some l =>
        rw [hval] at ht
        refine ⟨l, rfl, ?_⟩
        simpa [pyTruthy] using ht
    have hnnf : ¬n = "NOTFOUND" := by
      rintro rfl
      have : ("NOTFOUND" : String) ∉ adapterOrder := by decide
      exact this hn
    refine ⟨l, n, hn, hlne, hnnf, hl, hsource, ?_⟩
    have hg : (pyTruthy (resolveRow (sqlite_search store f) fetch).lcc
        && (sqlite_search store f).isNone) = true := by
      rw [ht, hm]; rfl
    unfold writeThrough
    rw [if_pos hg, hl, hsource]
    rfl

theorem c3_write_through_guard_witness :
    writeThrough [] "0306406152" (sqlite_search [] "0306406152")
      (resolveRow (sqlite_search [] "0306406152") fetchOclc) ≠ [] :=
  (c3_write_through_guard [] "0306406152" fetchOclc).1.mpr ⟨by decide, by decide⟩

/-- C4 counterexample: a second `insert_if_absent` with the same ISBN but a
different LCC is *not* a no-op — with no uniqueness constraint on the table,
`INSERT OR IGNORE` appends a second row for the same canonical ISBN, so the
store does not keep at most one row per ISBN. -/
theorem c4_counterexample :
    sql_tableinsert (sql_tableinsert [] rowA) rowB ≠ sql_tableinsert [] rowA
    ∧ ((sql_tableinsert (sql_tableinsert [] rowA) rowB).filter
        (fun r => r.isbn == "0306406152")).length = 2
    ∧ rowB.isbn = rowA.isbn ∧ rowB.lc ≠ rowA.lc := by decide

/-- C4 (amended): after inserting record `r` into a store with no row
matching `r.isbn`, lookup of `r.isbn` returns a record equal to `r`; a
second insert with the same ISBN but a different LCC *appends a second row*
(it is not a no-op and the store keeps both rows), but a later lookup still
returns the original record `r`, because `sqlite_search` takes the first
matching row in insertion order. -/
theorem c4_round_trip_append (store : List CacheRow) (r r' : CacheRow)
    (hfresh : ∀ q ∈ store, strLike q.isbn r.isbn = false)
    (halpha : isbnAlphabet r.isbn = true) :
    sqlite_search (sql_tableinsert store r) r.isbn = some r
    ∧ sql_tableinsert (sql_tableinsert store r) r' = store ++ [r, r']
    ∧ sqlite_search (sql_tableinsert (sql_tableinsert store r) r') r.isbn = some r := by
  have hself : strLike r.isbn r.isbn = true := by
    rw [strLike, likeM_nowild _ _ (isbnAlphabet_nowild _ halpha)]
  have hfilter : store.filter (fun q => strLike q.isbn r.isbn) = [] :=
    List.filter_eq_nil_iff.mpr (fun q hq => by simp [hfresh q hq])
  refine ⟨?_, ?_, ?_⟩
  · show ((store ++ [r]).filter (fun q => strLike q.isbn r.isbn)).head? = some r
    rw [List.filter_append, hfilter]
    simp [hself]
  · simp [sql_tableinsert]
  · show (((store ++ [r]) ++ [r']).filter (fun q => strLike q.isbn r.isbn)).head? = some r
    rw [List.filter_append, List.filter_append, hfilter]
    simp [hself]

theorem c4_round_trip_append_witness :
    isbnAlphabet rowA.isbn = true
    ∧ sqlite_search (sql_tableinsert (sql_tableinsert [] rowA) rowB) rowA.isbn = some rowA :=
  ⟨by decide, (c4_round_trip_append [] rowA rowB (by decide) (by decide)).2.2⟩

/-- C8 counterexample: the cache lookup is a SQL `LIKE` comparison, which is
ASCII-case-insensitive, so for the canonical ISBN `000000006X` it returns a
stored row whose ISBN column (`000000006x`) differs from the lookup key —
refuting exact-match lookup over arbitrary store contents. -/
theorem c8_counterexample :
    isCanonIsbn "000000006X" = true
    ∧ sqlite_search [⟨"000000006x", "QA76", "OCLC"⟩] "000000006X"
        = some ⟨"000000006x", "QA76", "OCLC"⟩
    ∧ ("000000006x" : String) ≠ "000000006X" := by decide

/-- C8 (amended): for a canonical ISBN `i` (whose characters — digits and
`X` — contain no `LIKE` wildcards), `lookup(i)` returns a record exactly when
the store holds a row whose ISBN equals `i` up to ASCII case, every returned
row is such a row of the store, and when the store's ISBN columns are
themselves drawn from the canonical alphabet (as every row written by the
program is), the match is exact string equality. -/
theorem c8_lookup_case_insensitive (store : List CacheRow) (i : String)
    (hi : isCanonIsbn i = true) :
    ((sqlite_search store i).isSome = true
      ↔ ∃ r ∈ store, r.isbn.toList.map Char.toLower = i.toList.map Char.toLower)
    ∧ (∀ r, sqlite_search store i = some r →
        r ∈ store ∧ r.isbn.toList.map Char.toLower = i.toList.map Char.toLower)
    ∧ ((∀ r ∈ store, isbnAlphabet r.isbn = true) →
        ∀ r, sqlite_search store i = some r → r.isbn = i) := by
  have hnw := isbnAlphabet_nowild i (isCanonIsbn_alphabet i hi)
  have hlike : ∀ s : String, strLike s i = true
      ↔ s.toList.map Char.toLower = i.toList.map Char.toLower := by
    intro s
    rw [strLike, likeM_nowild i.toList s.toList hnw]
    exact eq_comm
  have hmain : ∀ r, sqlite_search store i = some r →
      r ∈ store ∧ r.isbn.toList.map Char.toLower = i.toList.map Char.toLower := by
    intro r hr
    obtain ⟨h1, h2⟩ := sqlite_search_mem store i r hr
    exact ⟨h1, (hlike r.isbn).mp h2⟩
  refine ⟨?_, hmain, ?_⟩
  · rw [sqlite_search_isSome]
    constructor
    · rintro ⟨r, hr, hl⟩
      exact ⟨r, hr, (hlike r.isbn).mp hl⟩
    · rintro ⟨r, hr, hl⟩
      exact ⟨r, hr, (hlike r.isbn).mpr hl⟩
  · intro halpha r hr
    obtain ⟨hmem, hcase⟩ := hmain r hr
    have h1 := isbnAlphabet_chars r.isbn (halpha r hmem)
    have h2 := isbnAlphabet_chars i (isCanonIsbn_alphabet i hi)
    have := alphabet_lower_inj r.isbn.toList i.toList h1 h2 hcase
    exact String.ext this

theorem c8_lookup_case_insensitive_witness :
    isCanonIsbn "0306406152" = true
    ∧ ∀ r, sqlite_search storeHit "0306406152" = some r → r.isbn = "0306406152" :=
  ⟨by decide, (c8_lookup_case_insensitive storeHit "0306406152" (by decide)).2.2 (by decide)⟩

/-- C6: `fix_isbn` implements the staged cleanup contract: a raw string
whose direct canonicalization validates is returned in that canonical form;
otherwise the loose-extraction pipeline (`get_isbnlike` on the original
string, `clean`, `get_canonical_isbn`) runs, returning `None` whenever any
stage yields a string shorter than 10 characters or a final string of
non-ISBN length, returning `None` when the final check-digit validation
fails, and returning the re-canonicalized string when it succeeds. -/
theorem c6_fix_isbn_stages (lib : IsbnLib) (raw : String) :
    (directValid lib raw = true → fix_isbn lib raw = .ret (some (lib.canonical raw)))
    ∧ (directValid lib raw = false → (lib.canonical raw).length < 10 →
        fix_isbn lib raw = .ret none)
    ∧ (directValid lib raw = false → ¬(lib.canonical raw).length < 10 →
        (lib.get_isbnlike raw).length < 10 → fix_isbn lib raw = .ret none)
    ∧ (directValid lib raw = false → ¬(lib.canonical raw).length < 10 →
        ¬(lib.get_isbnlike raw).length < 10 →
        (lib.clean (lib.get_isbnlike raw)).length < 10 → fix_isbn lib raw = .ret none)
    ∧ (∀ c, directValid lib raw = false → ¬(lib.canonical raw).length < 10 →
        ¬(lib.get_isbnlike raw).length < 10 →
        ¬(lib.clean (lib.get_isbnlike raw)).length < 10 →
        lib.get_canonical_isbn (lib.clean (lib.get_isbnlike raw)) = some c →
        (c.length < 10 → fix_isbn lib raw = .ret none)
        ∧ (¬c.length < 10 → ¬c.length = 10 → ¬c.length = 13 → fix_isbn lib raw = .ret none)
        ∧ (c.length = 10 → lib.is_isbn10 c = false → fix_isbn lib raw = .ret none)
        ∧ (c.length = 13 → lib.is_isbn13 c = false → fix_isbn lib raw = .ret none)
        ∧ (c.length = 10 → lib.is_isbn10 c = true → fix_isbn lib raw = .ret (some c))
        ∧ (c.length = 13 → lib.is_isbn13 c = true → fix_isbn lib raw = .ret (some c))) := by
  refine ⟨?_, ?_, ?_, ?_, ?_⟩
  · intro hd; simp [fix_isbn, hd]
  · intro hd hlt; simp [fix_isbn, hd, hlt]
  · intro hd h1 hlt; simp [fix_isbn, hd, h1, hlt]
  · intro hd h1 h2 hlt; simp [fix_isbn, hd, h1, h2, hlt]
  · intro c hd h1 h2 h3 hc
    have hcne : ∀ hlen : c.length = 10 ∨ c.length = 13, ¬c = "" := by
      rintro hlen rfl
      rcases hlen with h | h <;> simp at h
    refine ⟨?_, ?_, ?_, ?_, ?_, ?_⟩
    · intro hlt; simp [fix_isbn, hd, h1, h2, h3, hc, hlt]
    · intro hge hn10 hn13
      have hne : ¬c = "" := by
        rintro rfl; exact hge (by simp)
      simp [fix_isbn, hd, h1, h2, h3, hc, hge, hn10, hn13, hne]
    · intro hlen hbad
      have hge : ¬c.length < 10 := by omega
      simp [fix_isbn, hd, h1, h2, h3, hc, hge, hlen, hcne (Or.inl hlen), hbad]
    · intro hlen hbad
      have hge : ¬c.length < 10 := by omega
      simp [fix_isbn, hd, h1, h2, h3, hc, hge, hlen, hcne (Or.inr hlen), hbad]
    · intro hlen hgood
      have hge : ¬c.length < 10 := by omega
      simp [fix_isbn, hd, h1, h2, h3, hc, hge, hlen, hcne (Or.inl hlen), hgood]
    · intro hlen hgood
      have hge : ¬c.length < 10 := by omega
      simp [fix_isbn, hd, h1, h2, h3, hc, hge, hlen, hcne (Or.inr hlen), hgood]

theorem c6_fix_isbn_stages_witness :
    directValid libFix "0306406152" = true
    ∧ fix_isbn libFix "0306406152" = .ret (some "0306406152") :=
  ⟨by decide, (c6_fix_isbn_stages libFix "0306406152").1 (by decide)⟩

/-- C7: for a data row whose ISBN normalizes, the written output row is
determined by the run-wide mode: in repeat mode (`outchoice = 1`) the
original row with `[lcc, source]` appended and with `["", "NOTFOUND"]`
appended when unresolved; in simple mode the 4-tuple of original ISBN, lcc,
canonical ISBN and source, with empty lcc and source `"NOTFOUND"` — but the
original and canonical ISBN still present — when unresolved. -/
theorem c7_output_modes (colchoice : Int) (store : List CacheRow)
    (fix fetch : String → Option String) (row : List String) (orig f : String)
    (h0 : ¬row.headD "" = "")
    (hlen : ¬(row.length : Int) < colchoice - 1)
    (hidx : pyIndex row colchoice = some orig)
    (hfix : fix orig = some f) (hf : ¬f = "") :
    (10 ≤ orig.length →
      processRow 1 colchoice store fix fetch row =
        .ret ⟨some (if pyTruthy (resolveRow (sqlite_search store f) fetch).lcc
            then row ++ [(resolveRow (sqlite_search store f) fetch).lcc.getD "",
                         (resolveRow (sqlite_search store f) fetch).source.getD ""]
            else row ++ ["", "NOTFOUND"]),
          writeThrough store f (sqlite_search store f)
            (resolveRow (sqlite_search store f) fetch)⟩)
    ∧ (processRow 2 colchoice store fix fetch row =
        .ret ⟨some (if pyTruthy (resolveRow (sqlite_search store f) fetch).lcc
            then [orig, (resolveRow (sqlite_search store f) fetch).lcc.getD "", f,
                  (resolveRow (sqlite_search store f) fetch).source.getD ""]
            else [orig, "", f, "NOTFOUND"]),
          writeThrough store f (sqlite_search store f)
            (resolveRow (sqlite_search store f) fetch)⟩) := by
  have hne : row.isEmpty = false := by
    cases row with
    | nil => exact absurd rfl h0
    | cons a l => rfl
  have h0' : ¬row.head?.getD "" = "" := by
    rw [← List.headD_eq_head?_getD]; exact h0
  constructor
  · intro h10
    have hshort : ¬orig.length < 10 := by omega
    by_cases hT : pyTruthy (resolveRow (sqlite_search store f) fetch).lcc = true
    · simp [processRow, hne, hlen, h0, hidx, hshort, hfix, hf, newdata, hT, h0']
    · have hF : pyTruthy (resolveRow (sqlite_search store f) fetch).lcc = false := by
        cases h : pyTruthy (resolveRow (sqlite_search store f) fetch).lcc with
        | true => exact absurd h hT
        | false => rfl
      simp [processRow, hne, hlen, h0, hidx, hshort, hfix, hf, newdata, hF, h0']
  · by_cases hT : pyTruthy (resolveRow (sqlite_search store f) fetch).lcc = true
    · simp [processRow, hne, hlen, h0, hidx, hfix, hf, newdata, hT, h0']
    · have hF : pyTruthy (resolveRow (sqlite_search store f) fetch).lcc = false := by
        cases h : pyTruthy (resolveRow (sqlite_search store f) fetch).lcc with
        | true => exact absurd h hT
        | false => rfl
      simp [processRow, hne, hlen, h0, hidx, hfix, hf, newdata, hF, h0']

theorem c7_output_modes_witness :
    fixConst "9780306406157" = some "0306406152"
    ∧ processRow 2 0 [] fixConst fetchNone ["9780306406157"] =
        .ret ⟨some ["9780306406157", "", "0306406152", "NOTFOUND"], []⟩ :=
  ⟨rfl, by
    have h := (c7_output_modes 0 [] fixConst fetchNone ["9780306406157"]
      "9780306406157" "0306406152" (by decide) (by decide) (by decide) (by decide)
      (by decide)).2
    simpa using h⟩

/-- C10: the missing-ISBN test reads only the row's first field: whenever a
(sufficiently long, per the column-count guard) row's first field is empty,
the row is treated as missing its ISBN — `row + ['','']` is written in
repeat mode and nothing in simple mode — for *every* configured ISBN column
and every normalizer, i.e. even when the configured column holds a valid
ISBN; the configured column is consulted only on the other branch. -/
theorem c10_missing_first_field (outchoice : Nat) (colchoice : Int)
    (store : List CacheRow) (fix fetch : String → Option String)
    (row : List String) (hne : row ≠ []) (h0 : row.headD "" = "")
    (hlen : ¬(row.length : Int) < colchoice - 1) :
    processRow outchoice colchoice store fix fetch row =
      if outchoice == 1 then .ret ⟨some (row ++ ["", ""]), store⟩
      else .ret ⟨none, store⟩ := by
  have hne' : row.isEmpty = false := by
    cases row with
    | nil => exact absurd rfl hne
    | cons a l => rfl
  have h0' : row.head?.getD "" = "" := by
    rw [← List.headD_eq_head?_getD]; exact h0
  by_cases ho : (outchoice == 1) = true
  · simp [processRow, hne', hlen, h0', ho]
  · have ho' : (outchoice == 1) = false := by
      cases h : (outchoice == 1) with
      | true => exact absurd h ho
      | false => rfl
    simp [processRow, hne', hlen, h0', ho']

theorem c10_missing_first_field_witness :
    (["", "9780306406157"] : List String) ≠ []
    ∧ pyIndex ["", "9780306406157"] 1 = some "9780306406157"
    ∧ isCanonIsbn "9780306406157" = true
    ∧ processRow 2 1 [] fixConst fetchMarker ["", "9780306406157"] = .ret ⟨none, []⟩ :=
  ⟨by decide, by decide, by decide, by
    have h := c10_missing_first_field 2 1 [] fixConst fetchMarker
      ["", "9780306406157"] (by decide) (by decide) (by decide)
    simpa using h⟩

theorem oclcBranch02_ne_diverged (d : OclcDoc) : oclcBranch02 d ≠ .diverged := by
  unfold oclcBranch02
  by_cases h1 : d.hasRecommendations = true
  · rw [if_pos h1]
    by_cases h2 : d.docLccCount > 0
    · rw [if_pos h2]
      cases d.recLccs with
      | nil => simp
      | cons mps _ =>
        rcases hb : lastNsfa mps with _ | val <;> simp [hb]
    · rw [if_neg h2]; simp
  · rw [if_neg h1]; simp

theorem oclc_fuel0_diverged (oracle : String → String → OclcHttp) (p v : String)
    (h : get_oclc_data 0 oracle p v = .diverged) :
    respRecurses (oracle p v) = true := by
  unfold get_oclc_data at h
  cases hor : oracle p v with
  | reqExn => rw [hor] at h; cases h
  | httpResp ok body =>
    cases ok with
    | false => rw [hor] at h; cases h
    | true =>
      cases body with
      | unparseable => rw [hor] at h; cases h
      | parsed d =>
        rw [hor] at h
        dsimp only at h
        by_cases hresp : d.hasResponse = true
        · rw [if_pos hresp] at h
          cases hcode : d.code with
          | none => rw [hcode] at h; cases h
          | some code =>
            rw [hcode] at h
            dsimp only at h
            by_cases h02 : (code == "0" || code == "2") = true
            · rw [if_pos h02] at h
              rcases hb : oclcBranch02 d with _ | _ | val <;> rw [hb] at h
              · cases h
              · exact absurd hb (oclcBranch02_ne_diverged d)
              · cases h
            · rw [if_neg h02] at h
              by_cases h4 : (code == "4") = true
              · rw [if_pos h4] at h
                by_cases hw : d.hasWorks = true
                · rw [if_pos hw] at h
                  cases hq : firstQualifying d.works with
                  | none => rw [hq] at h; cases h
                  | some m_wi =>
                    simp [respRecurses, hresp, hcode, h4, hw, hq]
                · rw [if_neg hw] at h; cases h
              · rw [if_neg h4] at h; cases h
        · rw [if_neg hresp] at h; cases h

theorem oclc_fuel_succ_diverged (n : Nat) (oracle : String → String → OclcHttp)
    (p v : String) (h : get_oclc_data (n + 1) oracle p v = .diverged) :
    ∃ w, get_oclc_data n oracle "wi" w = .diverged := by
  unfold get_oclc_data at h
  cases hor : oracle p v with
  | reqExn => rw [hor] at h; cases h
  | httpResp ok body =>
    cases ok with
    | false => rw [hor] at h; cases h
    | true =>
      cases body with
      | unparseable => rw [hor] at h; cases h
      | parsed d =>
        rw [hor] at h
        dsimp only at h
        by_cases hresp : d.hasResponse = true
        · rw [if_pos hresp] at h
          cases hcode : d.code with
          | none => rw [hcode] at h; cases h
          | some code =>
            rw [hcode] at h
            dsimp only at h
            by_cases h02 : (code == "0" || code == "2") = true
            · rw [if_pos h02] at h
              rcases hb : oclcBranch02 d with _ | _ | val <;> rw [hb] at h
              · cases h
              · exact absurd hb (oclcBranch02_ne_diverged d)
              · cases h
            · rw [if_neg h02] at h
              by_cases h4 : (code == "4") = true
              · rw [if_pos h4] at h
                by_cases hw : d.hasWorks = true
                · rw [if_pos hw] at h
                  cases hq : firstQualifying d.works with
                  | none => rw [hq] at h; cases h
                  | some m_wi =>
                    rw [hq] at h
                    dsimp only at h
                    rcases hb : get_oclc_data n oracle "wi" m_wi with _ | _ | val <;>
                      rw [hb] at h
                    · cases h
                    · exact ⟨m_wi, hb⟩
                    · cases h
                · rw [if_neg hw] at h; cases h
              · rw [if_neg h4] at h; cases h
        · rw [if_neg hresp] at h; cases h

/-- C5 counterexample: an adapter failure *does* raise out of the adapter —
in `main.py`'s `harvard_get`, a network failure makes `json_query` return
`None`, and the unguarded `record_data['items']` subscript then raises
`TypeError` out of the adapter (aborting the row, since the call site in the
main loop is not wrapped either). -/
theorem c5_counterexample :
    json_query .reqExn = .ret .jnull
    ∧ harvard_get_main .reqExn = .raised := ⟨rfl, rfl⟩

/-- C5 (amended): transport-level failures — a request exception, a non-ok
HTTP status, an undecodable JSON body — are caught and equivalent to
NotFound in `lcc_simple.py`'s `harvard_get` and in `get_oclc_data`'s request
path; but `main.py`'s `harvard_get` raises on any failed `json_query`, and in
both files `get_oclc_data` raises when an ok response's body is not parseable
XML, so adapter failures are not universally equivalent to NotFound. -/
theorem c5_adapter_failures :
    harvard_get_simple .reqExn = .ret .jnull
    ∧ (∀ b, harvard_get_simple (.resp false b) = .ret .jnull)
    ∧ harvard_get_simple (.resp true (.error ())) = .ret .jnull
    ∧ harvard_get_main .reqExn = .raised
    ∧ (∀ n oracle p v, oracle p v = OclcHttp.reqExn →
        get_oclc_data n oracle p v = .ret none)
    ∧ (∀ n oracle p v b, oracle p v = OclcHttp.httpResp false b →
        get_oclc_data n oracle p v = .ret none)
    ∧ (∀ n oracle p v, oracle p v = OclcHttp.httpResp true .unparseable →
        get_oclc_data n oracle p v = .raised) := by
  refine ⟨rfl, ?_, rfl, rfl, ?_, ?_, ?_⟩
  · intro b; rfl
  · intro n oracle p v h
    unfold get_oclc_data
    rw [h]
  · intro n oracle p v b h
    unfold get_oclc_data
    rw [h]
  · intro n oracle p v h
    unfold get_oclc_data
    rw [h]

theorem c5_adapter_failures_witness :
    oclcExnOracle "isbn" "0306406152" = OclcHttp.reqExn
    ∧ get_oclc_data 0 oclcExnOracle "isbn" "0306406152" = .ret none :=
  ⟨rfl, c5_adapter_failures.2.2.2.2.1 0 oclcExnOracle "isbn" "0306406152" rfl⟩

/-- C9 counterexample: the recursion of `get_oclc_data` is not limited to one
level of indirection — against an oracle whose every response (including the
responses to `wi` queries) is a "multiple works" document with a qualifying
work, the run does not finish within a budget of one recursive call (depth
two), nor within two. -/
theorem c9_counterexample :
    respRecurses (oclcAll4Oracle "wi" "w1") = true
    ∧ get_oclc_data 1 oclcAll4Oracle "isbn" "0306406152" = .diverged
    ∧ get_oclc_data 2 oclcAll4Oracle "isbn" "0306406152" = .diverged := by
  refine ⟨rfl, rfl, rfl⟩

/-- C9 (amended): the recursive call does use the `wi` lookup variant, and
recursion stops at depth two provided no response to a `wi` query is itself a
"multiple works" response with a qualifying work: under that hypothesis a
budget of one recursive call never runs out. -/
theorem c9_one_level (oracle : String → String → OclcHttp) (p v : String)
    (hwi : ∀ w, respRecurses (oracle "wi" w) = false) :
    get_oclc_data 1 oracle p v ≠ .diverged := by
  intro h
  obtain ⟨w, hw⟩ := oclc_fuel_succ_diverged 0 oracle p v h
  have := oclc_fuel0_diverged oracle "wi" w hw
  rw [hwi w] at this
  cases this

theorem c9_one_level_witness :
    respRecurses (oclcExnOracle "wi" "w1") = false
    ∧ get_oclc_data 1 oclcExnOracle "isbn" "0306406152" ≠ .diverged :=
  ⟨rfl, c9_one_level oclcExnOracle "isbn" "0306406152" (fun _ => rfl)⟩
